import Mathlib

/-!
Verification development for the Retail Analytics Copilot agent.

Shallow embedding of the orchestration state machine from
`src/agent/graph_hybrid.py` and the batch driver from `src/run_agent_hybrid.py`.

Modelling conventions:
* Python strings are `String`, lists are `List`, dicts with fixed keys are structures.
* Python floats are modelled as `ℚ` (no claim depends on binary rounding artifacts).
* External collaborators (the DSPy inference service, the BM25 retriever, the
  SQLite engine, the stdlib JSON parser) are an explicit `Env` of oracle
  functions; per-call nondeterminism of the SQL generator is modelled by
  indexing it with the retry counter of the calling attempt.
* Python's `in` substring test is `strContains`; `re` matching for the two
  regexes in the source (the numeric-token regex of the synthesizer and the
  table-name patterns of `fix_order_details_table`) is implemented directly
  over `List Char`.  `re.IGNORECASE` is modelled by lowercasing both sides
  (ASCII, matching `Char.toLower`); `\b` word boundaries use the ASCII word
  characters `[A-Za-z0-9_]`.
-/

namespace RetailCopilot

/-- ASCII word character, the `\w` class used by `\b` in the table-name regexes. -/
def isWordChar (c : Char) : Bool := c.isAlphanum || c == '_'

/-- Bool test: `p` is a prefix of `l` (char-exact). -/
def beginsWith : List Char → List Char → Bool
  | [], _ => true
  | _ :: _, [] => false
  | p :: ps, c :: cs => p == c && beginsWith ps cs

/-- Bool test: `p` occurs contiguously inside `l`; Python's `p in l` on strings. -/
def occursIn (p : List Char) : List Char → Bool
  | [] => beginsWith p []
  | c :: cs => beginsWith p (c :: cs) || occursIn p cs

/-- Python `pat in s` for strings. -/
def strContains (s pat : String) : Bool := occursIn pat.data s.data

/-- Python `str.lower()` (ASCII case mapping, which is all the source relies on). -/
def pyLower (s : String) : String := ⟨s.data.map Char.toLower⟩

/-- Python `str.strip()`: whitespace removed from both ends. -/
def pyStrip (s : String) : String :=
  ⟨((s.data.dropWhile Char.isWhitespace).reverse.dropWhile Char.isWhitespace).reverse⟩

/-- Python `s[:n]`: the first `n` characters. -/
def pySlice (s : String) (n : Nat) : String := ⟨s.data.take n⟩

/-- Python `str.replace` core: replace every non-overlapping occurrence of the
nonempty pattern `p0 :: ps`, scanning left to right. -/
def replaceAllCore (p0 : Char) (ps repl : List Char) : List Char → List Char
  | [] => []
  | c :: rest =>
    if c == p0 && beginsWith ps rest then
      repl ++ replaceAllCore p0 ps repl (rest.drop ps.length)
    else
      c :: replaceAllCore p0 ps repl rest
termination_by l => l.length
decreasing_by
  all_goals simp [List.length_drop]
  omega

/-- Python `s.replace(pat, repl)` (for the nonempty patterns the source uses). -/
def pyReplace (s pat repl : String) : String :=
  match pat.data with
  | [] => s
  | p0 :: ps => ⟨replaceAllCore p0 ps repl.data s.data⟩

/-- Python `s.split('\n')` on the character list. -/
def splitLines : List Char → List (List Char)
  | [] => [[]]
  | c :: rest =>
    match splitLines rest with
    | [] => [[]]
    | g :: gs => if c == '\n' then [] :: g :: gs else (c :: g) :: gs

/-- Python `s.split('\n')`. -/
def pySplitLines (s : String) : List String := (splitLines s.data).map (⟨·⟩)

/-- Python `sep.join(xs)`. -/
def pyJoin (sep : String) : List String → String
  | [] => ""
  | x :: rest => rest.foldl (fun acc a => acc ++ sep ++ a) x

/-- Rounding to two decimal places: Python's `round(x, 2)` (ties are irrelevant
to every claim, so the rational `round` stands in for float rounding). -/
def round2 (x : ℚ) : ℚ := (round (x * 100) : ℤ) / 100

/-- Value of a digit run, `int("...")`. -/
def digitsToNat (l : List Char) : Nat := l.foldl (fun a c => 10 * a + (c.toNat - 48)) 0

/-- Body of the decimal alternative after the optional sign: `\d*\.\d+`
(maximal digit run, a literal dot, then at least one digit, maximal). -/
def matchFloatAlt1Core (sgn l1 : List Char) : Option (List Char) :=
  match l1.dropWhile Char.isDigit with
  | '.' :: l3 =>
    let fs := l3.takeWhile Char.isDigit
    if fs.isEmpty then none else some (sgn ++ l1.takeWhile Char.isDigit ++ '.' :: fs)
  | _ => none

/-- First match of the regex branch `[-+]?\d*\.\d+` at the head of `l`
(the decimal alternative of the synthesizer's float regex). -/
def matchFloatAlt1 (l : List Char) : Option (List Char) :=
  match l with
  | c :: rest =>
    if c == '-' || c == '+' then matchFloatAlt1Core [c] rest else matchFloatAlt1Core [] l
  | [] => matchFloatAlt1Core [] []

/-- First match of the regex branch `\d+` at the head of `l`. -/
def matchFloatAlt2 (l : List Char) : Option (List Char) :=
  let ds := l.takeWhile Char.isDigit
  if ds.isEmpty then none else some ds

/-- Leftmost match of `re.findall(r"[-+]?\d*\.\d+|\d+", ...)`: at each position
the decimal alternative is tried before the integer one (regex alternation),
scanning left to right. -/
def firstFloatToken : List Char → Option (List Char)
  | [] => none
  | c :: rest =>
    match matchFloatAlt1 (c :: rest) with
    | some t => some t
    | none =>
      match matchFloatAlt2 (c :: rest) with
      | some t => some t
      | none => firstFloatToken rest

/-- Leftmost match of `re.findall(r"\d+", ...)`: the first maximal digit run. -/
def firstIntToken : List Char → Option (List Char)
  | [] => none
  | c :: rest =>
    if c.isDigit then some (c :: rest.takeWhile Char.isDigit) else firstIntToken rest

/-- Numeric value of a token produced by the float regex: `float(tok)`. -/
def tokenToRat (t : List Char) : ℚ :=
  let (sg, t1) : ℚ × List Char := match t with
    | c :: rest =>
      if c == '-' then ((-1 : ℚ), rest) else if c == '+' then ((1 : ℚ), rest) else ((1 : ℚ), t)
    | [] => ((1 : ℚ), t)
  let ip := t1.takeWhile Char.isDigit
  let rest := t1.dropWhile Char.isDigit
  let fp := match rest with
    | '.' :: fs => fs
    | _ => []
  sg * ((digitsToNat ip : ℚ) + (digitsToNat fp : ℚ) / (10 : ℚ) ^ fp.length)

/-- The final answer value: Python's dynamically-typed `final_val` / `final_answer`
(`None`, a string, an int, a float, or a JSON-parsed value supplied by the
external parser oracle). -/
inductive AnswerVal where
  | null : AnswerVal
  | strVal : String → AnswerVal
  | intVal : Int → AnswerVal
  | numVal : ℚ → AnswerVal
deriving DecidableEq

/-- Answer coercion of `synthesizer_node` (graph_hybrid.py lines 211-228),
driven by `format_hint`.  `parseJson` models `json.loads` (returning `none` on
a parse error, which the source swallows). -/
def coerceAnswer (parseJson : String → Option AnswerVal) (hint raw : String) : AnswerVal :=
  if hint == "int" then
    match firstIntToken raw.data with
    | some t => .intVal (digitsToNat t)
    | none => .intVal 0
  else if hint == "float" then
    match firstFloatToken raw.data with
    | some t => .numVal (round2 (tokenToRat t))
    | none => .numVal 0
  else if strContains hint "list" || strContains hint "\x7b" then
    if strContains raw "\x7b" || strContains raw "[" then
      match parseJson raw with
      | some v => v
      | none => .strVal raw
    else .strVal raw
  else .strVal raw

/-! ### `re.sub` for the table-name canonicalization pass

`fix_order_details_table` (graph_hybrid.py lines 103-123) rewrites six
case-insensitive patterns into `"Order Details"`.  `reSub` scans left to
right, replacing each leftmost non-overlapping match, exactly as `re.sub`;
`useB` selects whether the pattern carries `\b` word boundaries on both sides
(true for the four `\b...\b` spellings, false for the backtick and bracket
forms).  `prev` is the character preceding the current scan position in the
original string (`none` at the start), which is what `\b` inspects. -/

/-- Caseless prefix test: the lowercase pattern `p` matches the head of `l`
under `re.IGNORECASE`. -/
def clStarts : List Char → List Char → Bool
  | [], _ => true
  | _ :: _, [] => false
  | p :: ps, c :: cs => (c.toLower == p) && clStarts ps cs

/-- Left `\b` for a pattern starting with a word character: satisfied at the
string start or after a non-word character. -/
def prevOk (useB : Bool) (prev : Option Char) : Bool :=
  !useB ||
    (match prev with
     | none => true
     | some p => !isWordChar p)

/-- Right `\b` for a pattern ending with a word character: satisfied at the
string end or before a non-word character. -/
def nextOk (useB : Bool) (l : List Char) : Bool :=
  !useB ||
    (match l with
     | [] => true
     | d :: _ => !isWordChar d)

/-- One `re.sub(pattern, repl, s, flags=IGNORECASE)` pass; the pattern is the
nonempty lowercase list `p0 :: ps`. -/
def reSub (useB : Bool) (p0 : Char) (ps repl : List Char) : Option Char → List Char → List Char
  | _, [] => []
  | prev, c :: rest =>
    if prevOk useB prev && ((c.toLower == p0) && clStarts ps rest) &&
        nextOk useB (rest.drop ps.length) then
      repl ++ reSub useB p0 ps repl (some ((rest.take ps.length).getLastD c)) (rest.drop ps.length)
    else
      c :: reSub useB p0 ps repl (some c) rest
termination_by _ l => l.length
decreasing_by
  all_goals simp [List.length_drop]
  omega

/-- Wrapper running `reSub` on a pattern given as a string. -/
def reSubStr (useB : Bool) (pat repl : String) (s : List Char) : List Char :=
  match pat.data with
  | [] => s
  | p0 :: ps => reSub useB p0 ps repl.data none s

/-- The replacement text `"Order Details"` (with the double quotes). -/
def odRepl : String := "\"Order Details\""

/-- The six `re.sub` passes of `fix_order_details_table` in source order
(innermost first): `\bOrderDetails\b`, `\bOrder_Details\b`,
`\borderdetails\b`, `\border_details\b`, `` `Order Details` ``,
`[Order Details]`, all case-insensitive. -/
def fixData (l : List Char) : List Char :=
  reSubStr false "[order details]" odRepl
    (reSubStr false "`order details`" odRepl
      (reSubStr true "order_details" odRepl
        (reSubStr true "orderdetails" odRepl
          (reSubStr true "order_details" odRepl
            (reSubStr true "orderdetails" odRepl l)))))

/-- Embedding of `fix_order_details_table` (graph_hybrid.py lines 103-123): the six
`re.sub` passes in source order.  `re.IGNORECASE` is modelled by storing each
pattern lowercased and comparing through `Char.toLower`. -/
def fix_order_details_table (s : String) : String :=
  ⟨fixData s.data⟩

/-! ### Data model: request context, results, outputs, external environment -/

/-- A retrieved passage, as produced by `LocalRetriever.search`
(`{id, text, source, score}`). -/
structure Doc where
  id : String
  text : String
  source : String
  score : ℚ
deriving DecidableEq

/-- Result dict of `SQLiteTool.execute_sql`: `{columns, rows, error}`.  Row
cells are modelled as strings (no claim inspects cell values).  The driver's
initial `sql_results = {}` is modelled as the record with `error = none` and
empty columns/rows, which agrees with every read the source performs on it
(`.get("error")`, `.get("rows", [])`). -/
structure ExecResult where
  columns : List String
  rows : List (List String)
  error : Option String
deriving DecidableEq

/-- The per-question output record `{id, final_answer, sql, confidence,
explanation, citations}`.  `citations` is a `Finset` because the source builds
it as `list(set(...))`, whose order is unspecified. -/
structure Output where
  id : String
  final_answer : AnswerVal
  sql : String
  confidence : ℚ
  explanation : String
  citations : Finset String
deriving DecidableEq

/-- The `AgentState` TypedDict of graph_hybrid.py (lines 20-32), with
`final_output` optional (absent until the synthesizer writes it). -/
structure AgentState where
  id : String
  question : String
  format_hint : String
  route : String
  search_query : String
  search_terms : String
  retrieved_docs : List Doc
  sql_query : String
  sql_results : ExecResult
  retries : Nat
  error_feedback : String
  final_output : Option Output

/-- A DSPy `Prediction` from the answer synthesizer: the `answer` field plus
the three optional explanation-like fields probed by the `hasattr` chain in
`synthesizer_node` (lines 237-244). -/
structure SynthPred where
  answer : String
  why : Option String
  reason : Option String
  explanation : Option String

/-- The external collaborators, as oracle functions.  `classify` and `genSQL`
return `Except` because the source catches inference-service exceptions at
those two call sites; `genSQL` additionally returns an `Option` for the
`hasattr(pred, 'sql') / hasattr(pred, 'sql_query')` probing (a `none` models a
prediction carrying neither field, which yields `""`).  `genSQL` is indexed by
the caller's retry counter so that distinct attempts may produce distinct
completions. -/
structure Env where
  classify : String → Except String String
  genSearchQuery : String → String
  search : String → List Doc
  extractTerms : String → String → String
  schema : String
  genSQL : Nat → String → String → String → String → Except String (Option String)
  execSQL : String → ExecResult
  synthesize : String → String → String → String → String → SynthPred
  parseJson : String → Option AnswerVal

/-! ### Node implementations (graph_hybrid.py section 3) -/

/-- Label normalization of `router_node` (lines 57-78): lowercase and strip the
raw label, then match the canonical labels as substrings in priority order
`hybrid`, `sql`, `rag`; default to `hybrid` on no match or on an
inference-service error. -/
def routeOf (r : Except String String) : String :=
  match r with
  | .error _ => "hybrid"
  | .ok label =>
    let raw := pyStrip (pyLower label)
    if strContains raw "hybrid" then "hybrid"
    else if strContains raw "sql" then "sql"
    else if strContains raw "rag" then "rag"
    else "hybrid"

/-- Node `router_node`. -/
def router_node (env : Env) (st : AgentState) : AgentState :=
  { st with route := routeOf (env.classify st.question) }

/-- Node `search_query_generation_node` (lines 80-84). -/
def search_query_generation_node (env : Env) (st : AgentState) : AgentState :=
  { st with search_query := env.genSearchQuery st.question }

/-- Node `retriever_node` (lines 86-89); `top_k = 3` lives inside the retriever. -/
def retriever_node (env : Env) (st : AgentState) : AgentState :=
  { st with retrieved_docs := env.search st.search_query }

/-- Node `planner_node` (lines 91-101): skip the inference call when the
concatenated context is empty. -/
def planner_node (env : Env) (st : AgentState) : AgentState :=
  let context_str := pyJoin "\n\n" (st.retrieved_docs.map (·.text))
  if context_str == "" then { st with search_terms := "" }
  else { st with search_terms := env.extractTerms context_str st.question }

/-- Markdown fence stripping of `sql_generator_node` (line 153). -/
def stripFences (s : String) : String := pyStrip (pyReplace (pyReplace s "```sql" "") "```" "")

/-- The conversational filler phrases filtered out of generated SQL (line 158). -/
def fillerPhrases : List String := ["here is", "this query", "explanation", "note:", "the query"]

/-- Filler-line removal of `sql_generator_node` (lines 157-159). -/
def removeFiller (c : String) : String :=
  let lines := pySplitLines c
  let sql_lines := lines.filter
    (fun l => pyStrip l ≠ "" && !(fillerPhrases.any (fun ph => strContains (pyLower l) ph)))
  if sql_lines.isEmpty then c else pyJoin "\n" sql_lines

/-- Error-feedback augmentation of `sql_generator_node` (lines 138-139). -/
def hintAug (error_msg : String) : String :=
  if strContains error_msg "OrderDetails" || strContains (pyLower error_msg) "no such table" then
    error_msg ++ " IMPORTANT: Use \"Order Details\" (with space and double quotes) not OrderDetails."
  else error_msg

/-- Node `sql_generator_node` (lines 125-170). -/
def sql_generator_node (env : Env) (st : AgentState) : AgentState :=
  let constraints := st.search_terms
  let error_msg := if st.retries > 0 then st.error_feedback else ""
  let error_msg := hintAug error_msg
  let clean_sql :=
    match env.genSQL st.retries st.question env.schema constraints error_msg with
    | .error _ => "SELECT 1"
    | .ok osql =>
      let raw_sql := osql.getD ""
      fix_order_details_table (removeFiller (stripFences raw_sql))
  { st with sql_query := clean_sql }

/-- Node `executor_node` (lines 172-182): on failure increment `retries` and set
`error_feedback`; on success update only `sql_results` (in particular
`error_feedback` is left as it was). -/
def executor_node (env : Env) (st : AgentState) : AgentState :=
  let results := env.execSQL st.sql_query
  match results.error with
  | some e =>
    { st with sql_results := results, retries := st.retries + 1, error_feedback := e }
  | none => { st with sql_results := results }

/-- The fixed table list scanned for citations (line 232). -/
def knownTables : List String :=
  ["Orders", "Order Details", "Products", "Customers", "Categories", "Suppliers"]

/-- Citation assembly of `synthesizer_node` (lines 230-233, 252): passage ids
plus every known table occurring in `sql_query` bare or quoted, with set
semantics from `list(set(citations))`.  The `if sql_query :=` walrus guard
skips the table scan when `sql_query` is empty. -/
def citationSet (docs : List Doc) (sql_query : String) : Finset String :=
  let base := docs.map (·.id)
  let tbls :=
    if sql_query ≠ "" then
      knownTables.filter
        (fun tbl => strContains sql_query tbl || strContains sql_query ("\"" ++ tbl ++ "\""))
    else []
  (base ++ tbls).toFinset

/-- Node `synthesizer_node` (lines 184-255). -/
def synthesizer_node (env : Env) (st : AgentState) : AgentState :=
  let sql_res := st.sql_results
  let context_str :=
    match st.retrieved_docs with
    | [] => ""
    | d :: _ => pySlice d.text 500
  let sql_result_str := if !sql_res.rows.isEmpty then toString sql_res.rows else "No results"
  let sql_result_str :=
    if sql_result_str.length > 300 then pySlice sql_result_str 300 ++ "..." else sql_result_str
  let pred := env.synthesize st.question context_str st.sql_query sql_result_str st.format_hint
  let final_val := coerceAnswer env.parseJson st.format_hint pred.answer
  let confidence : ℚ := if sql_res.error.isSome then 0 else 1 - (1 / 5) * st.retries
  let explanation_text :=
    match pred.why with
    | some w => if w ≠ "" then pySlice w 200 else ""
    | none =>
      match pred.reason with
      | some w => if w ≠ "" then pySlice w 200 else ""
      | none =>
        match pred.explanation with
        | some w => if w ≠ "" then pySlice w 200 else ""
        | none => ""
  { st with final_output := some {
      id := st.id
      final_answer := final_val
      sql := st.sql_query
      confidence := round2 (max 0 confidence)
      explanation := explanation_text
      citations := citationSet st.retrieved_docs st.sql_query } }

/-! ### Graph construction: conditional edges and traversal (section 4) -/

/-- Conditional edge `route_after_router` (lines 272-277). -/
def route_after_router (st : AgentState) : String :=
  if st.route = "rag" ∨ st.route = "hybrid" then "search_query_generator" else "sql_generator"

/-- Conditional edge `route_after_planner` (lines 292-297). -/
def route_after_planner (st : AgentState) : String :=
  if st.route = "rag" then "synthesizer" else "sql_generator"

/-- Conditional edge `route_after_executor` (lines 311-319): after a failed execution the
(post-increment) retry counter decides between another repair cycle and
synthesis. -/
def route_after_executor (st : AgentState) : String :=
  if st.sql_results.error.isSome then
    if st.retries ≤ 2 then "retry" else "finalize"
  else "finalize"

/-- The generate/execute repair loop (`sql_generator → executor` with the
`route_after_executor` conditional edge looping back to `sql_generator`).
Returns the state at the `finalize` transition together with the number of
generate/execute cycles performed.  Termination is exactly the retry bound
enforced by `route_after_executor`. -/
def repairLoopGo (env : Env) (st : AgentState) : AgentState × Nat :=
  if h : route_after_executor (executor_node env (sql_generator_node env st)) = "retry" then
    let (stf, n) := repairLoopGo env (executor_node env (sql_generator_node env st))
    (stf, n + 1)
  else (executor_node env (sql_generator_node env st), 1)
termination_by 3 - st.retries
decreasing_by
  have hr : (sql_generator_node env st).retries = st.retries := rfl
  rcases hE : (env.execSQL (sql_generator_node env st).sql_query).error with _ | e <;>
    simp [route_after_executor, executor_node, hE, hr] at h ⊢ <;> omega

/-- The full state-machine traversal of one question, following the compiled
graph's edges (entry point `router`; conditional branching per
`route_after_router`, `route_after_planner`, `route_after_executor`; exit
after `synthesizer`).  Also returns the number of generate/execute cycles. -/
def runAgent (env : Env) (st : AgentState) : AgentState × Nat :=
  let st1 := router_node env st
  if route_after_router st1 = "search_query_generator" then
    let st4 := planner_node env (retriever_node env (search_query_generation_node env st1))
    if route_after_planner st4 = "synthesizer" then (synthesizer_node env st4, 0)
    else
      let (st5, n) := repairLoopGo env st4
      (synthesizer_node env st5, n)
  else
    let (st5, n) := repairLoopGo env st1
    (synthesizer_node env st5, n)

/-! ### Batch driver (src/run_agent_hybrid.py) -/

/-- One decoded input line `{id, question, format_hint}`. -/
structure QInput where
  id : String
  question : String
  format_hint : String

/-- The initial state built by the driver (run_agent_hybrid.py lines 43-50). -/
def initState (q : QInput) : AgentState :=
  { id := q.id, question := q.question, format_hint := q.format_hint,
    route := "", search_query := "", search_terms := "", retrieved_docs := [],
    sql_query := "", sql_results := ⟨[], [], none⟩, retries := 0,
    error_feedback := "", final_output := none }

/-- The degraded record written when an exception escapes the per-question
traversal (run_agent_hybrid.py lines 75-84). -/
def degradedRecord (qid e : String) : Output :=
  { id := qid, final_answer := .null, sql := "", confidence := 0,
    explanation := "System Error: " ++ e, citations := ∅ }

/-- The fallback record for a traversal that returned without a
`final_output` (lines 64-73). -/
def fallbackRecord (qid : String) : Output :=
  { id := qid, final_answer := .null, sql := "", confidence := 0,
    explanation := "Agent failed to produce an output payload.", citations := ∅ }

/-- The per-line loop of `main` (run_agent_hybrid.py lines 31-88).  `decode`
models `json.loads` plus the `.get` field reads (outside the try block, not
covered by the per-question boundary); `invoke` models `app.invoke` for the
line at the given enumeration index: an `Except.error` is an exception
escaping the traversal, `.ok none` a run that produced no `final_output`.
Each produced record is appended in order (the per-line `f_out.write`). -/
def mainLoop (decode : String → QInput)
    (invoke : Nat → QInput → Except String (Option Output)) :
    Nat → List String → List Output
  | _, [] => []
  | i, line :: rest =>
    if pyStrip line == "" then mainLoop decode invoke (i + 1) rest
    else
      let q := decode line
      let payload :=
        match invoke i q with
        | .ok (some p) => p
        | .ok none => fallbackRecord q.id
        | .error e => degradedRecord q.id e
      payload :: mainLoop decode invoke (i + 1) rest

/-- The match condition of `reSub` at the head of `l` (false on an empty
list): the pattern matches caselessly and, for `\b` patterns, both word
boundaries hold. -/
def matchCond (useB : Bool) (p0 : Char) (ps : List Char) (prev : Option Char)
    (l : List Char) : Bool :=
  match l with
  | [] => false
  | c :: rest =>
    prevOk useB prev && ((c.toLower == p0) && clStarts ps rest) &&
      nextOk useB (rest.drop ps.length)

/-- Does the pattern match at any position of `l` (with `prev` the character
preceding `l`)?  The scanner that `reSub` replaces along. -/
def hasMatch (useB : Bool) (p0 : Char) (ps : List Char) (prev : Option Char) :
    List Char → Bool
  | [] => false
  | c :: rest => matchCond useB p0 ps prev (c :: rest) || hasMatch useB p0 ps (some c) rest

/-! ### Shared concrete instances for witnesses -/

/-- A concrete environment whose SQL generator raises and whose executor
succeeds. -/
def sampleEnv : Env :=
  { classify := fun _ => .ok "sql"
    genSearchQuery := fun _ => "keywords"
    search := fun _ => []
    extractTerms := fun _ _ => ""
    schema := "Table: Orders"
    genSQL := fun _ _ _ _ _ => .error "inference service down"
    execSQL := fun _ => ⟨["c"], [["1"]], none⟩
    synthesize := fun _ _ _ _ _ => ⟨"42", none, none, none⟩
    parseJson := fun _ => none }

/-- A concrete state in which an earlier attempt has already failed. -/
def statePriorFailure : AgentState :=
  { initState ⟨"q1", "total revenue?", "int"⟩ with
    retries := 1, error_feedback := "no such table: OrderDetails",
    sql_query := "SELECT 1" }

/-- A concrete environment whose SQL generator returns a prediction without
the expected output field. -/
def sampleEnvMissingField : Env :=
  { sampleEnv with genSQL := fun _ _ _ _ _ => .ok none }

/-! ### Helper lemmas -/

theorem beginsWith_iff (p l : List Char) : beginsWith p l = true ↔ ∃ v, l = p ++ v := by
  induction p generalizing l with
  | nil => simp [beginsWith]
  | cons a as ih =>
    cases l with
    | nil => simp [beginsWith]
    | cons c cs =>
      simp only [beginsWith, Bool.and_eq_true, beq_iff_eq, ih, List.cons_append,
        List.cons.injEq]
      constructor
      · rintro ⟨rfl, v, rfl⟩
        exact ⟨v, rfl, rfl⟩
      · rintro ⟨v, rfl, rfl⟩
        exact ⟨rfl, v, rfl⟩

theorem occursIn_iff (p l : List Char) : occursIn p l = true ↔ ∃ u v, l = u ++ p ++ v := by
  induction l with
  | nil =>
    simp only [occursIn, beginsWith_iff]
    constructor
    · rintro ⟨v, hv⟩
      exact ⟨[], v, hv⟩
    · rintro ⟨u, v, huv⟩
      rcases List.append_eq_nil.mp (List.append_eq_nil.mp huv.symm).1 with ⟨rfl, rfl⟩
      exact ⟨v, huv⟩
  | cons c cs ih =>
    simp only [occursIn, Bool.or_eq_true, beginsWith_iff, ih]
    constructor
    · rintro (⟨v, hv⟩ | ⟨u, v, hv⟩)
      · exact ⟨[], v, by simpa using hv⟩
      · exact ⟨c :: u, v, by simp [hv]⟩
    · rintro ⟨u, v, hv⟩
      cases u with
      | nil => exact Or.inl ⟨v, by simpa using hv⟩
      | cons b bs =>
        simp only [List.cons_append, List.cons.injEq] at hv
        exact Or.inr ⟨bs, v, hv.2⟩

theorem strContains_iff (s pat : String) :
    strContains s pat = true ↔ ∃ u v, s.data = u ++ pat.data ++ v := by
  simp [strContains, occursIn_iff]

/-! ### C3: router label normalization -/

/-- C3: the Router case-folds (and strips) the raw classification label and
matches the three canonical labels as substrings in priority order `hybrid`,
`sql`, `rag` (first match wins); an inference-service error or a label
matching none of the three defaults to `hybrid`; in particular the raw label
"This is a hybrid-sql mix" resolves to `hybrid`. -/
theorem router_label_normalization :
    (∀ e, routeOf (.error e) = "hybrid") ∧
    (∀ label, (∃ u v, (pyStrip (pyLower label)).data = u ++ "hybrid".data ++ v) →
      routeOf (.ok label) = "hybrid") ∧
    (∀ label, ¬ (∃ u v, (pyStrip (pyLower label)).data = u ++ "hybrid".data ++ v) →
      (∃ u v, (pyStrip (pyLower label)).data = u ++ "sql".data ++ v) →
      routeOf (.ok label) = "sql") ∧
    (∀ label, ¬ (∃ u v, (pyStrip (pyLower label)).data = u ++ "hybrid".data ++ v) →
      ¬ (∃ u v, (pyStrip (pyLower label)).data = u ++ "sql".data ++ v) →
      (∃ u v, (pyStrip (pyLower label)).data = u ++ "rag".data ++ v) →
      routeOf (.ok label) = "rag") ∧
    (∀ label, ¬ (∃ u v, (pyStrip (pyLower label)).data = u ++ "hybrid".data ++ v) →
      ¬ (∃ u v, (pyStrip (pyLower label)).data = u ++ "sql".data ++ v) →
      ¬ (∃ u v, (pyStrip (pyLower label)).data = u ++ "rag".data ++ v) →
      routeOf (.ok label) = "hybrid") ∧
    routeOf (.ok "This is a hybrid-sql mix") = "hybrid" := by
  refine ⟨fun e => rfl, fun label h => ?_, fun label h1 h2 => ?_,
    fun label h1 h2 h3 => ?_, fun label h1 h2 h3 => ?_, by decide⟩
  · rw [← strContains_iff] at h
    simp [routeOf, h]
  · rw [← strContains_iff] at h2
    have h1' : strContains (pyStrip (pyLower label)) "hybrid" = false := by
      rw [← Bool.not_eq_true, strContains_iff]; exact h1
    simp [routeOf, h1', h2]
  · have h1' : strContains (pyStrip (pyLower label)) "hybrid" = false := by
      rw [← Bool.not_eq_true, strContains_iff]; exact h1
    have h2' : strContains (pyStrip (pyLower label)) "sql" = false := by
      rw [← Bool.not_eq_true, strContains_iff]; exact h2
    rw [← strContains_iff] at h3
    simp [routeOf, h1', h2', h3]
  · have h1' : strContains (pyStrip (pyLower label)) "hybrid" = false := by
      rw [← Bool.not_eq_true, strContains_iff]; exact h1
    have h2' : strContains (pyStrip (pyLower label)) "sql" = false := by
      rw [← Bool.not_eq_true, strContains_iff]; exact h2
    have h3' : strContains (pyStrip (pyLower label)) "rag" = false := by
      rw [← Bool.not_eq_true, strContains_iff]; exact h3
    simp [routeOf, h1', h2', h3']

/-- Witness for C3: concrete labels exercising each hypothesis of the
normalization theorem. -/
theorem router_label_normalization_witness :
    routeOf (.ok " HYBRID please ") = "hybrid" ∧ routeOf (.ok "use SQL!") = "sql" := by
  constructor
  · exact router_label_normalization.2.1 " HYBRID please "
      ⟨[], " please".data, by decide⟩
  · exact router_label_normalization.2.2.1 "use SQL!"
      (by rw [← strContains_iff]; decide) ⟨"use ".data, "!".data, by decide⟩

/-! ### C7: citation assembly -/

/-- C7: the citation set is exactly the ids of the retrieved passages together
with the known table names occurring (bare or double-quoted) as literal
substrings of the generated query; and for empty passages with a query
containing `"Order Details"`, the set is exactly `{"Order Details"}`. -/
theorem citation_assembly :
    (∀ docs q x, x ∈ citationSet docs q ↔
      (∃ d ∈ docs, d.id = x) ∨
      (x ∈ knownTables ∧
        ((∃ u v, q.data = u ++ x.data ++ v) ∨
         (∃ u v, q.data = u ++ ('"' :: (x.data ++ ['"'])) ++ v)))) ∧
    citationSet [] "SELECT SUM(UnitPrice * Quantity) FROM \"Order Details\"" =
      {"Order Details"} := by
  constructor
  · intro docs q x
    unfold citationSet
    by_cases hq : q = ""
    · subst hq
      simp only [ne_eq, not_true_eq_false, if_false, List.append_nil, List.mem_toFinset,
        List.mem_map]
      constructor
      · rintro ⟨d, hd, rfl⟩
        exact Or.inl ⟨d, hd, rfl⟩
      · rintro (⟨d, hd, rfl⟩ | ⟨hx, (⟨u, v, hv⟩ | ⟨u, v, hv⟩)⟩)
        · exact ⟨d, hd, rfl⟩
        · exfalso
          have hxd : x.data = [] :=
            (List.append_eq_nil.mp (List.append_eq_nil.mp hv.symm).1).2
          have hx0 : x = "" := String.ext hxd
          subst hx0
          exact absurd hx (by decide)
        · exfalso
          have : ('"' :: (x.data ++ ['"'])) = [] :=
            (List.append_eq_nil.mp (List.append_eq_nil.mp hv.symm).1).2
          simp at this
    · simp only [ne_eq, hq, not_false_iff, if_true, List.mem_toFinset, List.mem_append,
        List.mem_map, List.mem_filter, Bool.or_eq_true, strContains_iff]
      constructor
      · rintro (⟨d, hd, rfl⟩ | ⟨hx, hocc⟩)
        · exact Or.inl ⟨d, hd, rfl⟩
        · refine Or.inr ⟨hx, ?_⟩
          rcases hocc with h | h
          · exact Or.inl h
          · refine Or.inr ?_
            rcases h with ⟨u, v, hv⟩
            refine ⟨u, v, ?_⟩
            simpa [String.data_append] using hv
      · rintro (⟨d, hd, rfl⟩ | ⟨hx, hocc⟩)
        · exact Or.inl ⟨d, hd, rfl⟩
        · refine Or.inr ⟨hx, ?_⟩
          rcases hocc with h | ⟨u, v, hv⟩
          · exact Or.inl h
          · refine Or.inr ⟨u, v, ?_⟩
            simpa [String.data_append] using hv
  · decide

/-- Witness for C7: a run with one retrieved passage and a query naming two
tables known to the table list. -/
theorem citation_assembly_witness :
    "doc1::chunk0" ∈ citationSet [⟨"doc1::chunk0", "t", "doc1", 1⟩]
      "SELECT * FROM Orders JOIN \"Order Details\"" ∧
    "Order Details" ∈ citationSet [⟨"doc1::chunk0", "t", "doc1", 1⟩]
      "SELECT * FROM Orders JOIN \"Order Details\"" ∧
    "Products" ∉ citationSet [⟨"doc1::chunk0", "t", "doc1", 1⟩]
      "SELECT * FROM Orders JOIN \"Order Details\"" := by
  refine ⟨?_, ?_, ?_⟩
  · exact (citation_assembly.1 _ _ _).mpr (Or.inl ⟨_, List.mem_singleton_self _, rfl⟩)
  · exact (citation_assembly.1 _ _ _).mpr
      (Or.inr ⟨by decide, Or.inl ⟨"SELECT * FROM Orders JOIN \"".data, "\"".data, by decide⟩⟩)
  · intro hmem
    rcases (citation_assembly.1 _ _ _).mp hmem with ⟨d, hd, hid⟩ | ⟨_, hocc⟩
    · simp only [List.mem_singleton] at hd
      subst hd
      exact absurd hid (by decide)
    · rcases hocc with h | h
      · rw [← strContains_iff] at h
        exact absurd h (by decide)
      · have h' : ∃ u v, ("SELECT * FROM Orders JOIN \"Order Details\"" : String).data =
            u ++ ("\"Products\"" : String).data ++ v := h
        rw [← strContains_iff] at h'
        exact absurd h' (by decide)

/-! ### C8: float answer coercion -/

theorem takeWhile_isDigit_nil {l : List Char} (h : ∀ c ∈ l, c.isDigit = false) :
    l.takeWhile Char.isDigit = [] := by
  cases l with
  | nil => rfl
  | cons c cs => simp [List.takeWhile_cons, h c (List.mem_cons_self c cs)]

theorem dropWhile_isDigit_id {l : List Char} (h : ∀ c ∈ l, c.isDigit = false) :
    l.dropWhile Char.isDigit = l := by
  cases l with
  | nil => rfl
  | cons c cs => simp [List.dropWhile_cons, h c (List.mem_cons_self c cs)]

theorem matchFloatAlt1Core_of_no_digit (sgn : List Char) {l1 : List Char}
    (h : ∀ c ∈ l1, c.isDigit = false) : matchFloatAlt1Core sgn l1 = none := by
  unfold matchFloatAlt1Core
  rw [dropWhile_isDigit_id h]
  cases l1 with
  | nil => rfl
  | cons b bs =>
    have hbs : ∀ d ∈ bs, d.isDigit = false := fun d hd => h d (List.mem_cons_of_mem _ hd)
    by_cases hbdot : b = '.'
    · subst hbdot
      simp [takeWhile_isDigit_nil hbs]
    · split
      · rename_i l3 heq2
        exact absurd (List.cons.inj heq2).1 hbdot
      · rfl

theorem matchFloatAlt1_of_no_digit {l : List Char} (h : ∀ c ∈ l, c.isDigit = false) :
    matchFloatAlt1 l = none := by
  unfold matchFloatAlt1
  cases l with
  | nil => exact matchFloatAlt1Core_of_no_digit [] (by simp)
  | cons c rest =>
    have hrest : ∀ d ∈ rest, d.isDigit = false := fun d hd => h d (List.mem_cons_of_mem c hd)
    by_cases hc : (c == '-' || c == '+') = true
    · simp only [hc, if_true]
      exact matchFloatAlt1Core_of_no_digit [c] hrest
    · simp only [Bool.not_eq_true] at hc
      simp only [hc, Bool.false_eq_true, if_false]
      exact matchFloatAlt1Core_of_no_digit [] h

theorem matchFloatAlt2_of_no_digit {l : List Char} (h : ∀ c ∈ l, c.isDigit = false) :
    matchFloatAlt2 l = none := by
  unfold matchFloatAlt2
  simp [takeWhile_isDigit_nil h]

theorem firstFloatToken_of_no_digit {l : List Char} (h : ∀ c ∈ l, c.isDigit = false) :
    firstFloatToken l = none := by
  induction l with
  | nil => rfl
  | cons c rest ih =>
    have hrest : ∀ d ∈ rest, d.isDigit = false := fun d hd => h d (List.mem_cons_of_mem c hd)
    unfold firstFloatToken
    rw [matchFloatAlt1_of_no_digit h, matchFloatAlt2_of_no_digit h, ih hrest]

theorem coerceFloat (pj : String → Option AnswerVal) (raw : String) :
    coerceAnswer pj "float" raw =
      (match firstFloatToken raw.data with
       | some t => .numVal (round2 (tokenToRat t))
       | none => .numVal 0) := rfl

/-- Counterexample for C8: under `format_hint = "float"`, the raw answer
`"-5"` coerces to `5.0`, not `-5.0` — the regex `[-+]?\d*\.\d+|\d+` accepts a
sign only on its decimal alternative, so a signed integer is matched without
its sign. -/
theorem float_coercion_drops_integer_sign :
    coerceAnswer (fun _ => none) "float" "-5" = .numVal 5 ∧ (5 : ℚ) ≠ -5 := by
  constructor
  · rw [coerceFloat, show firstFloatToken "-5".data = some "5".data from by decide]
    show AnswerVal.numVal (round2 (tokenToRat "5".data)) = _
    rw [show tokenToRat "5".data =
      1 * ((digitsToNat "5".data : ℚ) + (digitsToNat "".data : ℚ) / 10 ^ 0) from rfl,
      show digitsToNat "5".data = 5 from rfl, show digitsToNat "".data = 0 from rfl]
    norm_num [round2, round_eq]
  · norm_num

/-- C8 (amended): under `format_hint = "float"` the coercion extracts the
first numeric token (decimal alternative tried before integer at each
position), supports a leading sign only on tokens containing a decimal point
(so `"-5"` coerces to `5.0` while `"-5.5"` coerces to `-5.5`), rounds to two
decimal places, and defaults to `0.0` when the answer contains no digit:
`"3.14159"` coerces to `3.14` and `"No numeric value"` to `0.0`. -/
theorem float_coercion_amended :
    (∀ pj raw, (∀ c ∈ raw.data, c.isDigit = false) →
      coerceAnswer pj "float" raw = .numVal 0) ∧
    coerceAnswer (fun _ => none) "float" "3.14159" = .numVal (157 / 50) ∧
    coerceAnswer (fun _ => none) "float" "No numeric value" = .numVal 0 ∧
    coerceAnswer (fun _ => none) "float" "-5" = .numVal 5 ∧
    coerceAnswer (fun _ => none) "float" "-5.5" = .numVal (-11 / 2) ∧
    coerceAnswer (fun _ => none) "float" "about -7.129 total" = .numVal (-713 / 100) := by
  refine ⟨fun pj raw h => ?_, ?_, ?_, ?_, ?_, ?_⟩
  · rw [coerceFloat, firstFloatToken_of_no_digit h]
  · rw [coerceFloat, show firstFloatToken "3.14159".data = some "3.14159".data from by decide]
    show AnswerVal.numVal (round2 (tokenToRat "3.14159".data)) = _
    rw [show tokenToRat "3.14159".data =
      1 * ((digitsToNat "3".data : ℚ) + (digitsToNat "14159".data : ℚ) / 10 ^ 5) from rfl,
      show digitsToNat "3".data = 3 from rfl, show digitsToNat "14159".data = 14159 from rfl]
    norm_num [round2, round_eq]
  · rw [coerceFloat, firstFloatToken_of_no_digit (l := "No numeric value".data) (by decide)]
  · rw [coerceFloat, show firstFloatToken "-5".data = some "5".data from by decide]
    show AnswerVal.numVal (round2 (tokenToRat "5".data)) = _
    rw [show tokenToRat "5".data =
      1 * ((digitsToNat "5".data : ℚ) + (digitsToNat "".data : ℚ) / 10 ^ 0) from rfl,
      show digitsToNat "5".data = 5 from rfl, show digitsToNat "".data = 0 from rfl]
    norm_num [round2, round_eq]
  · rw [coerceFloat, show firstFloatToken "-5.5".data = some "-5.5".data from by decide]
    show AnswerVal.numVal (round2 (tokenToRat "-5.5".data)) = _
    rw [show tokenToRat "-5.5".data =
      (-1) * ((digitsToNat "5".data : ℚ) + (digitsToNat "5".data : ℚ) / 10 ^ 1) from rfl,
      show digitsToNat "5".data = 5 from rfl]
    norm_num [round2, round_eq]
  · rw [coerceFloat,
      show firstFloatToken "about -7.129 total".data = some "-7.129".data from by decide]
    show AnswerVal.numVal (round2 (tokenToRat "-7.129".data)) = _
    rw [show tokenToRat "-7.129".data =
      (-1) * ((digitsToNat "7".data : ℚ) + (digitsToNat "129".data : ℚ) / 10 ^ 3) from rfl,
      show digitsToNat "7".data = 7 from rfl, show digitsToNat "129".data = 129 from rfl]
    norm_num [round2, round_eq]

/-- Witness for C8 (amended): the no-digit default at a concrete raw answer. -/
theorem float_coercion_amended_witness :
    coerceAnswer (fun _ => none) "float" "n/a" = .numVal 0 :=
  float_coercion_amended.1 (fun _ => none) "n/a" (by decide)

/-! ### C2: confidence derivation -/

/-- C2: the confidence in `final_output` is `0` whenever the terminal
execution result carries a failure (whatever the attempt count), and is
`round(max(0, 1 - 0.2 * attempt_count), 2)` when it does not; in particular
`1, 0.8, 0.6, 0.4` for `0, 1, 2, 3` attempts. -/
theorem confidence_derivation :
    ∀ env st out, (synthesizer_node env st).final_output = some out →
      (st.sql_results.error.isSome → out.confidence = 0) ∧
      (st.sql_results.error = none →
        out.confidence = round2 (max 0 (1 - (1 / 5) * (st.retries : ℚ))) ∧
        (st.retries = 0 → out.confidence = 1) ∧
        (st.retries = 1 → out.confidence = 4 / 5) ∧
        (st.retries = 2 → out.confidence = 3 / 5) ∧
        (st.retries = 3 → out.confidence = 2 / 5)) := by
  intro env st out h
  have hval : out.confidence
      = round2 (max 0 (if st.sql_results.error.isSome then (0 : ℚ)
          else 1 - (1 / 5) * (st.retries : ℚ))) := by
    simp only [synthesizer_node, Option.some.injEq] at h
    subst h
    rfl
  constructor
  · intro herr
    rw [hval, if_pos herr]
    norm_num [round2, round_eq]
  · intro herr
    have hsucc : out.confidence = round2 (max 0 (1 - (1 / 5) * (st.retries : ℚ))) := by
      rw [hval, herr]
      rfl
    refine ⟨hsucc, ?_, ?_, ?_, ?_⟩ <;> intro hk <;> rw [hsucc, hk] <;>
      norm_num [round2, round_eq, max_def]

/-- Witness for C2: the sample environment and state (one prior failure, then
a successful execution result in the terminal state). -/
theorem confidence_derivation_witness :
    ∃ out, (synthesizer_node sampleEnv { statePriorFailure with
        sql_results := ⟨["c"], [["1"]], none⟩ }).final_output = some out ∧
      out.confidence = 4 / 5 := by
  refine ⟨_, rfl, ?_⟩
  exact ((confidence_derivation sampleEnv _ _ rfl).2 rfl).2.2.1 rfl

/-! ### C4: executor adapter on success (corrected) -/

/-- Counterexample for C4: a successful execution does not clear
`last_error` — after an earlier failure left `error_feedback` populated, a
successful attempt leaves it untouched. -/
theorem executor_success_keeps_last_error :
    (executor_node sampleEnv statePriorFailure).sql_results.error = none ∧
    (executor_node sampleEnv statePriorFailure).sql_results.rows = [["1"]] ∧
    (executor_node sampleEnv statePriorFailure).error_feedback
      = "no such table: OrderDetails" ∧
    "no such table: OrderDetails" ≠ "" := by
  exact ⟨rfl, rfl, rfl, by decide⟩

/-- C4 (amended): on success the executor populates `execution_result` with
the columns and rows of the query result, and leaves `last_error`
(`error_feedback`) and the retry counter unchanged — it does not clear the
error text of an earlier failed attempt. -/
theorem executor_success_behavior :
    ∀ env st, (env.execSQL st.sql_query).error = none →
      (executor_node env st).sql_results = env.execSQL st.sql_query ∧
      (executor_node env st).error_feedback = st.error_feedback ∧
      (executor_node env st).retries = st.retries := by
  intro env st h
  simp [executor_node, h]

/-- Witness for C4 (amended): the concrete success environment. -/
theorem executor_success_behavior_witness :
    (executor_node sampleEnv statePriorFailure).sql_results
        = sampleEnv.execSQL statePriorFailure.sql_query ∧
    (executor_node sampleEnv statePriorFailure).error_feedback
        = statePriorFailure.error_feedback ∧
    (executor_node sampleEnv statePriorFailure).retries = statePriorFailure.retries :=
  executor_success_behavior sampleEnv statePriorFailure rfl

/-! ### C9: batch driver fault isolation -/

/-- C9: a per-question failure never aborts the batch — the driver writes one
record per non-blank input line; a line whose traversal raises is recorded as
a degraded record (`final_answer` null, confidence `0`, explanation containing
the failure reason) and processing continues with the remaining lines. -/
theorem batch_driver_isolation :
    (∀ decode invoke i (lines : List String),
      (mainLoop decode invoke i lines).length
        = (lines.filter (fun l => !(pyStrip l == ""))).length) ∧
    (∀ decode invoke i line rest e, pyStrip line ≠ "" →
      invoke i (decode line) = .error e →
      mainLoop decode invoke i (line :: rest)
        = degradedRecord (decode line).id e :: mainLoop decode invoke (i + 1) rest) ∧
    (∀ qid e, (degradedRecord qid e).final_answer = .null ∧
      (degradedRecord qid e).confidence = 0 ∧
      ∃ u v, (degradedRecord qid e).explanation.data = u ++ e.data ++ v) := by
  refine ⟨?_, ?_, ?_⟩
  · intro decode invoke i lines
    induction lines generalizing i with
    | nil => rfl
    | cons l rest ih =>
      by_cases hl : pyStrip l == ""
      · simp [mainLoop, hl, ih]
      · simp only [Bool.not_eq_true] at hl
        simp [mainLoop, hl, ih]
  · intro decode invoke i line rest e hline hinv
    have hl : (pyStrip line == "") = false := by
      simpa using hline
    simp only [mainLoop, hl, Bool.false_eq_true, if_false, hinv]
  · intro qid e
    exact ⟨rfl, rfl, "System Error: ".data, [],
      by simp [degradedRecord, String.data_append]⟩

/-- Witness for C9: a two-line batch whose first traversal raises; the second
line is still processed. -/
theorem batch_driver_isolation_witness :
    mainLoop (fun _ => ⟨"q1", "q", "int"⟩)
        (fun i _ => if i = 0 then .error "boom" else .ok none) 0 ["line1", "line2"]
      = [degradedRecord "q1" "boom", fallbackRecord "q1"] := by
  rw [batch_driver_isolation.2.1 (fun _ => ⟨"q1", "q", "int"⟩)
    (fun i _ => if i = 0 then .error "boom" else .ok none) 0 "line1" ["line2"] "boom"
    (by decide) rfl]
  rfl

/-! ### Repair-loop lemmas -/

theorem sql_generator_node_retries (env : Env) (st : AgentState) :
    (sql_generator_node env st).retries = st.retries := rfl

theorem planner_node_retries (env : Env) (st : AgentState) :
    (planner_node env st).retries = st.retries := by
  by_cases hc : (pyJoin "\n\n" (st.retrieved_docs.map (·.text)) == "") = true <;>
    simp [planner_node, hc]

theorem executor_retries_cases (env : Env) (st : AgentState) :
    (executor_node env st).retries = st.retries ∨
    (executor_node env st).retries = st.retries + 1 := by
  rcases hE : (env.execSQL st.sql_query).error with _ | e <;> simp [executor_node, hE]

theorem retry_transition (env : Env) (st : AgentState)
    (h : route_after_executor (executor_node env (sql_generator_node env st)) = "retry") :
    (executor_node env (sql_generator_node env st)).retries = st.retries + 1 ∧
    st.retries + 1 ≤ 2 := by
  have hr : (sql_generator_node env st).retries = st.retries := rfl
  rcases hE : (env.execSQL (sql_generator_node env st).sql_query).error with _ | e
  · simp [route_after_executor, executor_node, hE] at h
  · simp only [route_after_executor, executor_node, hE, Option.isSome_some, if_true] at h ⊢
    split at h
    · rename_i hle
      rw [hr] at hle
      exact ⟨by rw [hr], hle⟩
    · simp at h

theorem repairLoopGo_retry (env : Env) (st : AgentState)
    (h : route_after_executor (executor_node env (sql_generator_node env st)) = "retry") :
    repairLoopGo env st =
      ((repairLoopGo env (executor_node env (sql_generator_node env st))).1,
       (repairLoopGo env (executor_node env (sql_generator_node env st))).2 + 1) := by
  conv_lhs => rw [repairLoopGo]
  rw [dif_pos h]

theorem repairLoopGo_finalize (env : Env) (st : AgentState)
    (h : ¬ route_after_executor (executor_node env (sql_generator_node env st)) = "retry") :
    repairLoopGo env st = (executor_node env (sql_generator_node env st), 1) := by
  conv_lhs => rw [repairLoopGo]
  rw [dif_neg h]

theorem repairLoopGo_bound (env : Env) : ∀ st : AgentState,
    (repairLoopGo env st).1.retries ≤ max (st.retries + 1) 3 ∧
    (repairLoopGo env st).2 + min st.retries 2 ≤ 3 := by
  intro st
  induction st using repairLoopGo.induct env with
  | case1 st h stf n heq ih =>
    obtain ⟨h1, h2⟩ := retry_transition env st h
    rw [repairLoopGo_retry env st h]
    have ih1 := ih.1
    have ih2 := ih.2
    rw [h1] at ih1 ih2
    constructor
    · show (repairLoopGo env (executor_node env (sql_generator_node env st))).1.retries ≤ _
      omega
    · show (repairLoopGo env (executor_node env (sql_generator_node env st))).2 + 1
          + min st.retries 2 ≤ 3
      omega
  | case2 st h =>
    rw [repairLoopGo_finalize env st h]
    have hsg : (sql_generator_node env st).retries = st.retries := rfl
    rcases executor_retries_cases env (sql_generator_node env st) with h1 | h1 <;>
      rw [hsg] at h1
    · exact ⟨by show (executor_node env (sql_generator_node env st)).retries ≤ _; omega,
        by show 1 + min st.retries 2 ≤ 3; omega⟩
    · exact ⟨by show (executor_node env (sql_generator_node env st)).retries ≤ _; omega,
        by show 1 + min st.retries 2 ≤ 3; omega⟩

theorem runAgent_bound (env : Env) (st : AgentState) (h0 : st.retries = 0) :
    (runAgent env st).2 ≤ 3 ∧ (runAgent env st).1.retries ≤ 3 := by
  unfold runAgent
  have hr1 : (router_node env st).retries = 0 := h0
  by_cases hA : route_after_router (router_node env st) = "search_query_generator"
  · rw [if_pos hA]
    have hr4 : (planner_node env (retriever_node env
        (search_query_generation_node env (router_node env st)))).retries = 0 := by
      rw [planner_node_retries]
      exact hr1
    by_cases hB : route_after_planner (planner_node env (retriever_node env
        (search_query_generation_node env (router_node env st)))) = "synthesizer"
    · rw [if_pos hB]
      exact ⟨by omega, by rw [show ∀ s, (synthesizer_node env s).retries = s.retries
        from fun _ => rfl]; omega⟩
    · rw [if_neg hB]
      rcases hp : repairLoopGo env (planner_node env (retriever_node env
        (search_query_generation_node env (router_node env st)))) with ⟨st5, n⟩
      obtain ⟨b1, b2⟩ := repairLoopGo_bound env (planner_node env (retriever_node env
        (search_query_generation_node env (router_node env st))))
      rw [hp, hr4] at b1 b2
      simp only at b1 b2
      exact ⟨by show n ≤ 3; omega, by
        show (synthesizer_node env st5).retries ≤ 3
        rw [show (synthesizer_node env st5).retries = st5.retries from rfl]
        omega⟩
  · rw [if_neg hA]
    rcases hp : repairLoopGo env (router_node env st) with ⟨st5, n⟩
    obtain ⟨b1, b2⟩ := repairLoopGo_bound env (router_node env st)
    rw [hp, hr1] at b1 b2
    simp only at b1 b2
    exact ⟨by show n ≤ 3; omega, by
      show (synthesizer_node env st5).retries ≤ 3
      rw [show (synthesizer_node env st5).retries = st5.retries from rfl]
      omega⟩

/-! ### C1: the repair loop is bounded -/

/-- C1: a run starting with `retries = 0` performs at most 3 generate/execute
cycles and ends with a retry counter in `{0, 1, 2, 3}`; and after a failed
execution the state machine loops back to SQL generation exactly when the
post-increment retry counter is at most 2. -/
theorem repair_loop_bounded :
    (∀ env st, st.retries = 0 →
      (runAgent env st).2 ≤ 3 ∧ (runAgent env st).1.retries ∈ ({0, 1, 2, 3} : Finset ℕ)) ∧
    (∀ st : AgentState, st.sql_results.error.isSome →
      (route_after_executor st = "retry" ↔ st.retries ≤ 2)) := by
  constructor
  · intro env st h0
    obtain ⟨hc, hr⟩ := runAgent_bound env st h0
    refine ⟨hc, ?_⟩
    simp only [Finset.mem_insert, Finset.mem_singleton]
    omega
  · intro st herr
    unfold route_after_executor
    rw [if_pos herr]
    constructor
    · intro h
      by_contra hgt
      rw [if_neg hgt] at h
      exact absurd h (by decide)
    · intro h
      rw [if_pos h]

/-- Witness for C1: the bound at the concrete sample run (whose generation
errors out, so the placeholder query is executed once and succeeds). -/
theorem repair_loop_bounded_witness :
    ((runAgent sampleEnv (initState ⟨"q1", "total revenue?", "int"⟩)).2 ≤ 3 ∧
      (runAgent sampleEnv (initState ⟨"q1", "total revenue?", "int"⟩)).1.retries
        ∈ ({0, 1, 2, 3} : Finset ℕ)) ∧
    (route_after_executor { statePriorFailure with
        sql_results := ⟨[], [], some "no such table: OrderDetails"⟩ } = "retry" ↔
      ({ statePriorFailure with
        sql_results := ⟨[], [], some "no such table: OrderDetails"⟩ } : AgentState).retries
          ≤ 2) := by
  constructor
  · exact repair_loop_bounded.1 sampleEnv _ rfl
  · exact repair_loop_bounded.2 { statePriorFailure with
      sql_results := ⟨[], [], some "no such table: OrderDetails"⟩ } rfl

/-! ### C6: the sql route skips retrieval and extraction -/

theorem executor_node_preserves (env : Env) (st : AgentState) :
    (executor_node env st).retrieved_docs = st.retrieved_docs ∧
    (executor_node env st).search_terms = st.search_terms ∧
    (executor_node env st).search_query = st.search_query := by
  rcases hE : (env.execSQL st.sql_query).error with _ | e <;> simp [executor_node, hE]

theorem repairLoopGo_preserves (env : Env) : ∀ st : AgentState,
    (repairLoopGo env st).1.retrieved_docs = st.retrieved_docs ∧
    (repairLoopGo env st).1.search_terms = st.search_terms ∧
    (repairLoopGo env st).1.search_query = st.search_query := by
  intro st
  induction st using repairLoopGo.induct env with
  | case1 st h stf n heq ih =>
    rw [repairLoopGo_retry env st h]
    obtain ⟨e1, e2, e3⟩ := executor_node_preserves env (sql_generator_node env st)
    have g1 : (sql_generator_node env st).retrieved_docs = st.retrieved_docs := rfl
    have g2 : (sql_generator_node env st).search_terms = st.search_terms := rfl
    have g3 : (sql_generator_node env st).search_query = st.search_query := rfl
    exact ⟨by rw [show ((repairLoopGo env (executor_node env (sql_generator_node env st))).1,
          (repairLoopGo env (executor_node env (sql_generator_node env st))).2 + 1).1
          = (repairLoopGo env (executor_node env (sql_generator_node env st))).1 from rfl,
        ih.1, e1, g1],
      by rw [show ((repairLoopGo env (executor_node env (sql_generator_node env st))).1,
          (repairLoopGo env (executor_node env (sql_generator_node env st))).2 + 1).1
          = (repairLoopGo env (executor_node env (sql_generator_node env st))).1 from rfl,
        ih.2.1, e2, g2],
      by rw [show ((repairLoopGo env (executor_node env (sql_generator_node env st))).1,
          (repairLoopGo env (executor_node env (sql_generator_node env st))).2 + 1).1
          = (repairLoopGo env (executor_node env (sql_generator_node env st))).1 from rfl,
        ih.2.2, e3, g3]⟩
  | case2 st h =>
    rw [repairLoopGo_finalize env st h]
    obtain ⟨e1, e2, e3⟩ := executor_node_preserves env (sql_generator_node env st)
    refine ⟨?_, ?_, ?_⟩
    · rw [show ((executor_node env (sql_generator_node env st), 1) :
        AgentState × ℕ).1 = executor_node env (sql_generator_node env st) from rfl, e1]
      rfl
    · rw [show ((executor_node env (sql_generator_node env st), 1) :
        AgentState × ℕ).1 = executor_node env (sql_generator_node env st) from rfl, e2]
      rfl
    · rw [show ((executor_node env (sql_generator_node env st), 1) :
        AgentState × ℕ).1 = executor_node env (sql_generator_node env st) from rfl, e3]
      rfl

/-- C6: when the Router resolves the route to `sql`, control flows directly to
the SQL generator (`route_after_router` returns `"sql_generator"`), and the
whole run leaves `retrieved_docs` and `search_terms` (and `search_query`)
exactly as the driver initialized them — the retrieval and extraction steps
are never executed. -/
theorem sql_route_skips_retrieval :
    ∀ env st, routeOf (env.classify st.question) = "sql" →
      route_after_router (router_node env st) = "sql_generator" ∧
      (runAgent env st).1.retrieved_docs = st.retrieved_docs ∧
      (runAgent env st).1.search_terms = st.search_terms ∧
      (runAgent env st).1.search_query = st.search_query := by
  intro env st h
  have hroute : (router_node env st).route = "sql" := by
    simp [router_node, h]
  have hA : route_after_router (router_node env st) = "sql_generator" := by
    unfold route_after_router
    rw [hroute, if_neg (by decide)]
  refine ⟨hA, ?_⟩
  unfold runAgent
  rw [if_neg (by rw [hA]; decide)]
  rcases hp : repairLoopGo env (router_node env st) with ⟨st5, n⟩
  obtain ⟨p1, p2, p3⟩ := repairLoopGo_preserves env (router_node env st)
  rw [hp] at p1 p2 p3
  simp only at p1 p2 p3
  refine ⟨?_, ?_, ?_⟩
  · rw [show ((synthesizer_node env st5, n) : AgentState × ℕ).1.retrieved_docs
      = st5.retrieved_docs from rfl, p1]
    rfl
  · rw [show ((synthesizer_node env st5, n) : AgentState × ℕ).1.search_terms
      = st5.search_terms from rfl, p2]
    rfl
  · rw [show ((synthesizer_node env st5, n) : AgentState × ℕ).1.search_query
      = st5.search_query from rfl, p3]
    rfl

/-- Witness for C6: the sample environment classifies every question as
`sql`; the run leaves the retrieval fields at their initial values. -/
theorem sql_route_skips_retrieval_witness :
    route_after_router (router_node sampleEnv (initState ⟨"q1", "total revenue?", "int"⟩))
        = "sql_generator" ∧
    (runAgent sampleEnv (initState ⟨"q1", "total revenue?", "int"⟩)).1.retrieved_docs = [] ∧
    (runAgent sampleEnv (initState ⟨"q1", "total revenue?", "int"⟩)).1.search_terms = "" ∧
    (runAgent sampleEnv (initState ⟨"q1", "total revenue?", "int"⟩)).1.search_query = "" :=
  sql_route_skips_retrieval sampleEnv (initState ⟨"q1", "total revenue?", "int"⟩) rfl

/-! ### C5: placeholder query on generation failure (code-level divergence)

`sql_generator_node` catches an inference-service exception by substituting
the placeholder `SELECT 1` with the comment "Will trigger repair loop"; but
`SELECT 1` is a valid query that executes successfully, so
`route_after_executor` sends the run to synthesis and the repair loop is never
entered.  A prediction missing the sql output field instead yields the empty
query (which does fail).  The theorem below evaluates the code at the failing
input. -/

/-- C5 divergence, evaluated: on an inference-service exception the generated
query is the placeholder `SELECT 1`; executing it against an engine that (like
SQLite) answers `SELECT 1` successfully routes to `finalize`, not `retry` —
the repair loop is not entered; and on a missing output field the generated
query is the empty string, not the placeholder. -/
theorem generation_failure_no_repair_loop :
    (sql_generator_node sampleEnv (initState ⟨"q1", "total revenue?", "int"⟩)).sql_query
      = "SELECT 1" ∧
    (sampleEnv.execSQL "SELECT 1").error = none ∧
    route_after_executor (executor_node sampleEnv
      (sql_generator_node sampleEnv (initState ⟨"q1", "total revenue?", "int"⟩)))
      = "finalize" ∧
    route_after_executor (executor_node sampleEnv
      (sql_generator_node sampleEnv (initState ⟨"q1", "total revenue?", "int"⟩)))
      ≠ "retry" ∧
    (sql_generator_node sampleEnvMissingField
      (initState ⟨"q1", "total revenue?", "int"⟩)).sql_query = "" := by
  refine ⟨rfl, rfl, rfl, by decide, ?_⟩
  show fix_order_details_table (removeFiller (stripFences "")) = ""
  have hsf : stripFences "" = "" := by
    simp [stripFences, pyReplace, replaceAllCore, pyStrip]
  have hrf : removeFiller "" = "" := by
    simp [removeFiller, pySplitLines, splitLines, pyStrip]
  have hfix : fix_order_details_table "" = "" := by
    simp [fix_order_details_table, fixData, reSubStr, reSub]
  rw [hsf, hrf, hfix]

/-! ### C10: idempotence of the canonicalization pass

The proof shows that after the six `re.sub` passes no pattern can match any
position of the result, so a second application of every pass is the
identity.  The two key facts are: (a) the replacement text `"Order Details"`
matches none of the patterns and no pattern occurrence can cross into it
(every pattern is free of the `"` character that flanks the replacement), and
(b) a substitution pass never creates a new match of an already-processed
pattern, because the word-boundary status of the characters adjacent to a
replaced region is preserved. -/

theorem uint32_le_iff_toNat_le (a b : UInt32) : a ≤ b ↔ a.toNat ≤ b.toNat := by
  rw [UInt32.le_def, BitVec.le_def]
  exact Iff.rfl

theorem char_toNat_ofNat {n : Nat} (h : n.isValidChar) : (Char.ofNat n).toNat = n := by
  unfold Char.ofNat
  rw [dif_pos h]
  rfl

theorem isWordChar_iff (c : Char) : isWordChar c = true ↔
    (65 ≤ c.toNat ∧ c.toNat ≤ 90) ∨ (97 ≤ c.toNat ∧ c.toNat ≤ 122) ∨
    (48 ≤ c.toNat ∧ c.toNat ≤ 57) ∨ c.toNat = 95 := by
  unfold isWordChar Char.isAlphanum Char.isAlpha Char.isUpper Char.isLower Char.isDigit
  simp only [Bool.or_eq_true, Bool.and_eq_true, decide_eq_true_eq, beq_iff_eq]
  constructor
  · rintro (((⟨h1, h2⟩ | ⟨h1, h2⟩) | ⟨h1, h2⟩) | h)
    · exact Or.inl ⟨(uint32_le_iff_toNat_le _ _).mp h1, (uint32_le_iff_toNat_le _ _).mp h2⟩
    · exact Or.inr (Or.inl ⟨(uint32_le_iff_toNat_le _ _).mp h1,
        (uint32_le_iff_toNat_le _ _).mp h2⟩)
    · exact Or.inr (Or.inr (Or.inl ⟨(uint32_le_iff_toNat_le _ _).mp h1,
        (uint32_le_iff_toNat_le _ _).mp h2⟩))
    · subst h
      exact Or.inr (Or.inr (Or.inr rfl))
  · rintro (⟨h1, h2⟩ | ⟨h1, h2⟩ | ⟨h1, h2⟩ | h)
    · exact Or.inl (Or.inl (Or.inl ⟨(uint32_le_iff_toNat_le _ _).mpr h1,
        (uint32_le_iff_toNat_le _ _).mpr h2⟩))
    · exact Or.inl (Or.inl (Or.inr ⟨(uint32_le_iff_toNat_le _ _).mpr h1,
        (uint32_le_iff_toNat_le _ _).mpr h2⟩))
    · exact Or.inl (Or.inr ⟨(uint32_le_iff_toNat_le _ _).mpr h1,
        (uint32_le_iff_toNat_le _ _).mpr h2⟩)
    · exact Or.inr (Char.eq_of_val_eq (UInt32.toNat.inj h))

theorem isWordChar_toLower (c : Char) : isWordChar c.toLower = isWordChar c := by
  unfold Char.toLower
  by_cases h : c.toNat ≥ 65 ∧ c.toNat ≤ 90
  · rw [if_pos h]
    have hv : (c.toNat + 32).isValidChar := Or.inl (by omega)
    have ht : (Char.ofNat (c.toNat + 32)).toNat = c.toNat + 32 := char_toNat_ofNat hv
    have hL : isWordChar (Char.ofNat (c.toNat + 32)) = true :=
      (isWordChar_iff _).mpr (Or.inr (Or.inl (by omega)))
    have hR : isWordChar c = true := (isWordChar_iff _).mpr (Or.inl (by omega))
    rw [hL, hR]
  · rw [if_neg h]

theorem isWordChar_of_toLower_beq {c q : Char} (hq : isWordChar q = true)
    (h : (c.toLower == q) = true) : isWordChar c = true := by
  rw [← isWordChar_toLower, beq_iff_eq.mp h]
  exact hq

theorem not_isWordChar_of_toLower_beq {c q : Char} (hq : isWordChar q = false)
    (h : (c.toLower == q) = true) : isWordChar c = false := by
  rw [← isWordChar_toLower, beq_iff_eq.mp h]
  exact hq

theorem toLower_beq_eq_false_of_word {d q : Char} (hq : isWordChar q = true)
    (hd : isWordChar d = false) : (d.toLower == q) = false := by
  by_contra hne
  rw [Bool.not_eq_false] at hne
  rw [isWordChar_of_toLower_beq hq hne] at hd
  exact Bool.true_eq_false.mp hd

/-! Unfolding equations for `reSub` (it is defined by well-founded recursion,
so these are proved once and used for all rewriting). -/

theorem reSub_nil (useB : Bool) (p0 : Char) (ps repl : List Char) (prev : Option Char) :
    reSub useB p0 ps repl prev [] = [] := by
  rw [reSub]

theorem reSub_cons_pos (useB : Bool) (p0 : Char) (ps repl : List Char) (prev : Option Char)
    (c : Char) (rest : List Char) (h : matchCond useB p0 ps prev (c :: rest) = true) :
    reSub useB p0 ps repl prev (c :: rest)
      = repl ++ reSub useB p0 ps repl (some ((rest.take ps.length).getLastD c))
          (rest.drop ps.length) := by
  simp only [matchCond] at h
  conv_lhs => rw [reSub]
  rw [if_pos h]

theorem reSub_cons_neg (useB : Bool) (p0 : Char) (ps repl : List Char) (prev : Option Char)
    (c : Char) (rest : List Char) (h : matchCond useB p0 ps prev (c :: rest) = false) :
    reSub useB p0 ps repl prev (c :: rest) = c :: reSub useB p0 ps repl (some c) rest := by
  simp only [matchCond] at h
  conv_lhs => rw [reSub]
  rw [if_neg (by rw [h]; exact Bool.false_ne_true)]

theorem hasMatch_cons (useB : Bool) (p0 : Char) (ps : List Char) (prev : Option Char)
    (c : Char) (rest : List Char) :
    hasMatch useB p0 ps prev (c :: rest)
      = (matchCond useB p0 ps prev (c :: rest) || hasMatch useB p0 ps (some c) rest) := rfl

/-- A pass over a string in which the pattern never matches is the identity. -/
theorem reSub_eq_of_no_match (useB : Bool) (p0 : Char) (ps repl : List Char) :
    ∀ prev l, hasMatch useB p0 ps prev l = false →
      reSub useB p0 ps repl prev l = l := by
  intro prev l
  induction prev, l using reSub.induct useB p0 ps repl with
  | case1 prev =>
    intro _
    rw [reSub_nil]
  | case2 prev c rest hcond ih =>
    intro hnm
    rw [hasMatch_cons, Bool.or_eq_false_iff] at hnm
    have hc' : matchCond useB p0 ps prev (c :: rest) = true := hcond
    rw [hnm.1] at hc'
    exact absurd hc' Bool.false_ne_true
  | case3 prev c rest hcond ih =>
    intro hnm
    rw [hasMatch_cons, Bool.or_eq_false_iff] at hnm
    rw [reSub_cons_neg useB p0 ps repl prev c rest hnm.1, ih hnm.2]

/-- The scanner `hasMatch` depends on `prev` only through `prevOk`. -/
theorem hasMatch_prev_congr (useB : Bool) (p0 : Char) (ps : List Char)
    {prev prev' : Option Char} (h : prevOk useB prev = prevOk useB prev')
    (l : List Char) : hasMatch useB p0 ps prev l = hasMatch useB p0 ps prev' l := by
  cases l with
  | nil => rfl
  | cons c rest => simp only [hasMatch_cons, matchCond, h]

/-- Extracting a no-match fact for the suffix reached after consuming `k`
characters beyond the head. -/
theorem hasMatch_drop (useB : Bool) (p0 : Char) (ps : List Char) :
    ∀ (k : Nat) (c : Char) (rest : List Char) (prev : Option Char),
      hasMatch useB p0 ps prev (c :: rest) = false →
      hasMatch useB p0 ps (some ((rest.take k).getLastD c)) (rest.drop k) = false := by
  intro k
  induction k with
  | zero =>
    intro c rest prev h
    rw [hasMatch_cons, Bool.or_eq_false_iff] at h
    simpa using h.2
  | succ k ih =>
    intro c rest prev h
    cases rest with
    | nil => rfl
    | cons d rest' =>
      have h2 : hasMatch useB p0 ps (some c) (d :: rest') = false := by
        rw [hasMatch_cons, Bool.or_eq_false_iff] at h
        exact h.2
      have hx : ((d :: rest').take (k + 1)).getLastD c = (rest'.take k).getLastD d := by
        rw [List.take_succ_cons, List.getLastD_cons]
      have hy : (d :: rest').drop (k + 1) = rest'.drop k := rfl
      rw [hx, hy]
      exact ih d rest' (some c) h2

theorem clStarts_cons (q : Char) (qs : List Char) (c : Char) (cs : List Char) :
    clStarts (q :: qs) (c :: cs) = ((c.toLower == q) && clStarts qs cs) := rfl

theorem odRepl_data_eq : odRepl.data = '"' :: "Order Details\"".data := rfl

/-- Pattern-prefix transfer across one substitution pass: when a suffix `ps'`
of the A-pattern matches caselessly at the head of the output of a
B-substitution pass, it already matched at the head of the input, and (for a
`\b` A-pattern) the word-boundary status just after the matched span is the
same in output and input.  The side conditions: the A-pattern avoids `"`
(so no occurrence can cross into a replacement), a `\b` A-pattern consists of
word characters, and a non-`\b` B-pattern starts with a non-word character. -/
theorem trans_clStarts (useB_A useB_B : Bool) (a0 : Char) (as : List Char)
    (b0 : Char) (bs : List Char)
    (hQA : ∀ q ∈ a0 :: as, q ≠ '"')
    (hWA : useB_A = true → ∀ q ∈ a0 :: as, isWordChar q = true)
    (hPB : useB_B = false → isWordChar b0 = false) :
    ∀ prev l ps', (∃ n, ps' = as.drop n) →
      (ps' = [] → useB_A = true → useB_B = true →
        ∃ w, prev = some w ∧ isWordChar w = true) →
      clStarts ps' (reSub useB_B b0 bs odRepl.data prev l) = true →
      clStarts ps' l = true ∧
      (useB_A = true →
        nextOk true ((reSub useB_B b0 bs odRepl.data prev l).drop ps'.length)
          = nextOk true (l.drop ps'.length)) := by
  intro prev l
  induction prev, l using reSub.induct useB_B b0 bs odRepl.data with
  | case1 prev =>
    intro ps' hsusp hw hcl
    rw [reSub_nil] at hcl
    refine ⟨hcl, fun _ => ?_⟩
    rw [reSub_nil]
  | case2 prev c rest hcond ih =>
    intro ps' hsusp hw hcl
    have hcond' := hcond
    simp only [Bool.and_eq_true] at hcond'
    obtain ⟨⟨hpOk, hb, hcp⟩, hnOk⟩ := hcond'
    have hout : reSub useB_B b0 bs odRepl.data prev (c :: rest)
        = odRepl.data ++ reSub useB_B b0 bs odRepl.data
            (some ((rest.take bs.length).getLastD c)) (rest.drop bs.length) :=
      reSub_cons_pos _ _ _ _ _ _ _ hcond
    cases ps' with
    | nil =>
      refine ⟨rfl, fun hA => ?_⟩
      by_cases hB : useB_B = true
      · obtain ⟨w, hwp, hww⟩ := hw rfl hA hB
        rw [hB, hwp] at hpOk
        have : isWordChar w = false := by
          simpa [prevOk] using hpOk
        rw [hww] at this
        exact absurd this (by decide)
      · have hb0 : isWordChar b0 = false := hPB (Bool.not_eq_true _ ▸ Bool.eq_false_iff.mpr hB)
        have hcw : isWordChar c = false := not_isWordChar_of_toLower_beq hb0 hb
        rw [hout, List.length_nil, List.drop_zero, List.drop_zero, odRepl_data_eq,
          List.cons_append]
        show (!isWordChar '"') = (!isWordChar c)
        rw [hcw]
        rfl
    | cons q qs =>
      exfalso
      have hq : q ∈ a0 :: as := by
        obtain ⟨n, hn⟩ := hsusp
        exact List.mem_cons_of_mem _ (List.drop_subset n as (hn ▸ List.mem_cons_self q qs))
      have hqQ : q ≠ '"' := hQA q hq
      rw [hout, odRepl_data_eq, List.cons_append, clStarts_cons] at hcl
      simp only [Bool.and_eq_true] at hcl
      have : ('"'.toLower == q) = true := hcl.1
      have h2 : '"' = q := by
        have h3 : '"'.toLower = q := beq_iff_eq.mp this
        simpa using h3
      exact hqQ h2.symm
  | case3 prev c rest hcond ih =>
    intro ps' hsusp hw hcl
    have hcf : matchCond useB_B b0 bs prev (c :: rest) = false := by
      have : (prevOk useB_B prev && (c.toLower == b0 && clStarts bs rest) &&
          nextOk useB_B (rest.drop bs.length)) = false := by
        simpa using hcond
      exact this
    have hout : reSub useB_B b0 bs odRepl.data prev (c :: rest)
        = c :: reSub useB_B b0 bs odRepl.data (some c) rest :=
      reSub_cons_neg _ _ _ _ _ _ _ hcf
    rw [hout] at hcl
    cases ps' with
    | nil =>
      refine ⟨rfl, fun _ => ?_⟩
      rw [hout, List.length_nil, List.drop_zero, List.drop_zero]
      rfl
    | cons q qs =>
      rw [clStarts_cons, Bool.and_eq_true] at hcl
      obtain ⟨hcq, hqs⟩ := hcl
      have hq : q ∈ a0 :: as := by
        obtain ⟨n, hn⟩ := hsusp
        exact List.mem_cons_of_mem _ (List.drop_subset n as (hn ▸ List.mem_cons_self q qs))
      have hsusp' : ∃ n, qs = as.drop n := by
        obtain ⟨n, hn⟩ := hsusp
        refine ⟨n + 1, ?_⟩
        have h1 : as.drop (n + 1) = (as.drop n).drop 1 := by
          rw [List.drop_drop, Nat.add_comm]
        rw [h1, ← hn]
        rfl
      have hw' : qs = [] → useB_A = true → useB_B = true →
          ∃ w, some c = some w ∧ isWordChar w = true := by
        intro _ hA _
        exact ⟨c, rfl, isWordChar_of_toLower_beq (hWA hA q hq) hcq⟩
      obtain ⟨ih1, ih2⟩ := ih qs hsusp' hw' hqs
      constructor
      · rw [clStarts_cons, hcq, ih1]
        rfl
      · intro hA
        rw [hout]
        show nextOk true ((reSub useB_B b0 bs odRepl.data (some c) rest).drop qs.length)
          = nextOk true (rest.drop qs.length)
        exact ih2 hA

theorem hasMatch_cons_skip (useB : Bool) (p0 : Char) (ps : List Char) (prev : Option Char)
    (c : Char) (rest : List Char)
    (h : ((c.toLower == p0) && clStarts ps rest) = false) :
    hasMatch useB p0 ps prev (c :: rest) = hasMatch useB p0 ps (some c) rest := by
  rw [hasMatch_cons]
  have hm : matchCond useB p0 ps prev (c :: rest) = false := by
    simp only [matchCond, h, Bool.and_false, Bool.false_and]
  rw [hm, Bool.false_or]

theorem hasMatch_R_OD (prev : Option Char) (t : List Char) :
    hasMatch true 'o' "rderdetails".data prev (odRepl.data ++ t)
      = hasMatch true 'o' "rderdetails".data (some '\x22') t := by
  show hasMatch true 'o' "rderdetails".data prev
      ('\x22' :: 'O' :: 'r' :: 'd' :: 'e' :: 'r' :: ' ' :: 'D' :: 'e' :: 't' ::
        'a' :: 'i' :: 'l' :: 's' :: '\x22' :: t) = _
  rw [hasMatch_cons_skip _ _ _ _ _ _ (by rfl), hasMatch_cons_skip _ _ _ _ _ _ (by rfl),
    hasMatch_cons_skip _ _ _ _ _ _ (by rfl), hasMatch_cons_skip _ _ _ _ _ _ (by rfl),
    hasMatch_cons_skip _ _ _ _ _ _ (by rfl), hasMatch_cons_skip _ _ _ _ _ _ (by rfl),
    hasMatch_cons_skip _ _ _ _ _ _ (by rfl), hasMatch_cons_skip _ _ _ _ _ _ (by rfl),
    hasMatch_cons_skip _ _ _ _ _ _ (by rfl), hasMatch_cons_skip _ _ _ _ _ _ (by rfl),
    hasMatch_cons_skip _ _ _ _ _ _ (by rfl), hasMatch_cons_skip _ _ _ _ _ _ (by rfl),
    hasMatch_cons_skip _ _ _ _ _ _ (by rfl), hasMatch_cons_skip _ _ _ _ _ _ (by rfl),
    hasMatch_cons_skip _ _ _ _ _ _ (by rfl)]

theorem hasMatch_R_ODu (prev : Option Char) (t : List Char) :
    hasMatch true 'o' "rder_details".data prev (odRepl.data ++ t)
      = hasMatch true 'o' "rder_details".data (some '\x22') t := by
  show hasMatch true 'o' "rder_details".data prev
      ('\x22' :: 'O' :: 'r' :: 'd' :: 'e' :: 'r' :: ' ' :: 'D' :: 'e' :: 't' ::
        'a' :: 'i' :: 'l' :: 's' :: '\x22' :: t) = _
  rw [hasMatch_cons_skip _ _ _ _ _ _ (by rfl), hasMatch_cons_skip _ _ _ _ _ _ (by rfl),
    hasMatch_cons_skip _ _ _ _ _ _ (by rfl), hasMatch_cons_skip _ _ _ _ _ _ (by rfl),
    hasMatch_cons_skip _ _ _ _ _ _ (by rfl), hasMatch_cons_skip _ _ _ _ _ _ (by rfl),
    hasMatch_cons_skip _ _ _ _ _ _ (by rfl), hasMatch_cons_skip _ _ _ _ _ _ (by rfl),
    hasMatch_cons_skip _ _ _ _ _ _ (by rfl), hasMatch_cons_skip _ _ _ _ _ _ (by rfl),
    hasMatch_cons_skip _ _ _ _ _ _ (by rfl), hasMatch_cons_skip _ _ _ _ _ _ (by rfl),
    hasMatch_cons_skip _ _ _ _ _ _ (by rfl), hasMatch_cons_skip _ _ _ _ _ _ (by rfl),
    hasMatch_cons_skip _ _ _ _ _ _ (by rfl)]

theorem hasMatch_R_BT (prev : Option Char) (t : List Char) :
    hasMatch false '`' "order details`".data prev (odRepl.data ++ t)
      = hasMatch false '`' "order details`".data (some '\x22') t := by
  show hasMatch false '`' "order details`".data prev
      ('\x22' :: 'O' :: 'r' :: 'd' :: 'e' :: 'r' :: ' ' :: 'D' :: 'e' :: 't' ::
        'a' :: 'i' :: 'l' :: 's' :: '\x22' :: t) = _
  rw [hasMatch_cons_skip _ _ _ _ _ _ (by rfl), hasMatch_cons_skip _ _ _ _ _ _ (by rfl),
    hasMatch_cons_skip _ _ _ _ _ _ (by rfl), hasMatch_cons_skip _ _ _ _ _ _ (by rfl),
    hasMatch_cons_skip _ _ _ _ _ _ (by rfl), hasMatch_cons_skip _ _ _ _ _ _ (by rfl),
    hasMatch_cons_skip _ _ _ _ _ _ (by rfl), hasMatch_cons_skip _ _ _ _ _ _ (by rfl),
    hasMatch_cons_skip _ _ _ _ _ _ (by rfl), hasMatch_cons_skip _ _ _ _ _ _ (by rfl),
    hasMatch_cons_skip _ _ _ _ _ _ (by rfl), hasMatch_cons_skip _ _ _ _ _ _ (by rfl),
    hasMatch_cons_skip _ _ _ _ _ _ (by rfl), hasMatch_cons_skip _ _ _ _ _ _ (by rfl),
    hasMatch_cons_skip _ _ _ _ _ _ (by rfl)]

theorem hasMatch_R_BR (prev : Option Char) (t : List Char) :
    hasMatch false '[' "order details]".data prev (odRepl.data ++ t)
      = hasMatch false '[' "order details]".data (some '\x22') t := by
  show hasMatch false '[' "order details]".data prev
      ('\x22' :: 'O' :: 'r' :: 'd' :: 'e' :: 'r' :: ' ' :: 'D' :: 'e' :: 't' ::
        'a' :: 'i' :: 'l' :: 's' :: '\x22' :: t) = _
  rw [hasMatch_cons_skip _ _ _ _ _ _ (by rfl), hasMatch_cons_skip _ _ _ _ _ _ (by rfl),
    hasMatch_cons_skip _ _ _ _ _ _ (by rfl), hasMatch_cons_skip _ _ _ _ _ _ (by rfl),
    hasMatch_cons_skip _ _ _ _ _ _ (by rfl), hasMatch_cons_skip _ _ _ _ _ _ (by rfl),
    hasMatch_cons_skip _ _ _ _ _ _ (by rfl), hasMatch_cons_skip _ _ _ _ _ _ (by rfl),
    hasMatch_cons_skip _ _ _ _ _ _ (by rfl), hasMatch_cons_skip _ _ _ _ _ _ (by rfl),
    hasMatch_cons_skip _ _ _ _ _ _ (by rfl), hasMatch_cons_skip _ _ _ _ _ _ (by rfl),
    hasMatch_cons_skip _ _ _ _ _ _ (by rfl), hasMatch_cons_skip _ _ _ _ _ _ (by rfl),
    hasMatch_cons_skip _ _ _ _ _ _ (by rfl)]

/-- A substitution pass leaves no match of its own pattern anywhere in its
output. -/
theorem reSub_no_match_self (useB_B : Bool) (b0 : Char) (bs : List Char)
    (hQ : ∀ q ∈ b0 :: bs, q ≠ '\x22')
    (hW : useB_B = true → ∀ q ∈ b0 :: bs, isWordChar q = true)
    (hP : useB_B = false → isWordChar b0 = false)
    (hR : ∀ prev t, hasMatch useB_B b0 bs prev (odRepl.data ++ t)
          = hasMatch useB_B b0 bs (some '\x22') t) :
    ∀ prev l,
      hasMatch useB_B b0 bs prev (reSub useB_B b0 bs odRepl.data prev l) = false := by
  intro prev l
  induction prev, l using reSub.induct useB_B b0 bs odRepl.data with
  | case1 prev =>
    rw [reSub_nil]
    rfl
  | case2 prev c rest hcond ih =>
    have hcond' := hcond
    simp only [Bool.and_eq_true] at hcond'
    obtain ⟨⟨hpOk, hb, hcp⟩, hnOk⟩ := hcond'
    have hout := reSub_cons_pos useB_B b0 bs odRepl.data prev c rest hcond
    rw [hout, hR]
    by_cases hB : useB_B = true
    · subst hB
      cases hd : rest.drop bs.length with
      | nil =>
        rw [reSub_nil]
        rfl
      | cons d t' =>
        have hdw : isWordChar d = false := by
          rw [hd] at hnOk
          simpa [nextOk] using hnOk
        have hdb : (d.toLower == b0) = false :=
          toLower_beq_eq_false_of_word (hW rfl b0 (List.mem_cons_self _ _)) hdw
        have hmc : matchCond true b0 bs (some ((rest.take bs.length).getLastD c))
            (d :: t') = false := by
          simp only [matchCond, hdb, Bool.false_and, Bool.and_false]
        have hout2 := reSub_cons_neg true b0 bs odRepl.data
          (some ((rest.take bs.length).getLastD c)) d t' hmc
        rw [hd] at ih
        rw [hout2] at ih ⊢
        rw [hasMatch_cons, Bool.or_eq_false_iff] at ih ⊢
        refine ⟨?_, ih.2⟩
        simp only [matchCond, hdb, Bool.false_and, Bool.and_false]
    · have hcongr : prevOk useB_B (some '\x22')
          = prevOk useB_B (some ((rest.take bs.length).getLastD c)) := by
        rw [Bool.eq_false_iff.mpr hB]
        rfl
      rw [hasMatch_prev_congr useB_B b0 bs hcongr]
      exact ih
  | case3 prev c rest hcond ih =>
    have hcf : matchCond useB_B b0 bs prev (c :: rest) = false := by
      have : (prevOk useB_B prev && (c.toLower == b0 && clStarts bs rest) &&
          nextOk useB_B (rest.drop bs.length)) = false := by
        simpa using hcond
      exact this
    have hout := reSub_cons_neg useB_B b0 bs odRepl.data prev c rest hcf
    rw [hout, hasMatch_cons, Bool.or_eq_false_iff]
    refine ⟨?_, ih⟩
    by_contra hmc
    rw [Bool.not_eq_false] at hmc
    simp only [matchCond, Bool.and_eq_true] at hmc
    obtain ⟨⟨hpOk, hb, hcp⟩, hnOk⟩ := hmc
    obtain ⟨t1, t2⟩ := trans_clStarts useB_B useB_B b0 bs b0 bs hQ hW hP (some c) rest bs
      ⟨0, rfl⟩
      (fun _ hA _ => ⟨c, rfl,
        isWordChar_of_toLower_beq (hW hA b0 (List.mem_cons_self _ _)) hb⟩)
      hcp
    have hTrue : matchCond useB_B b0 bs prev (c :: rest) = true := by
      simp only [matchCond, Bool.and_eq_true]
      refine ⟨⟨hpOk, hb, t1⟩, ?_⟩
      by_cases hA : useB_B = true
      · subst hA
        rw [← t2 rfl]
        exact hnOk
      · rw [Bool.eq_false_iff.mpr hA]
        rfl
    rw [hcf] at hTrue
    exact absurd hTrue (by decide)

theorem clStarts_take_getLastD : ∀ (bs rest : List Char) (c : Char),
    clStarts bs rest = true →
    ((rest.take bs.length).getLastD c).toLower = bs.getLastD c.toLower := by
  intro bs
  induction bs with
  | nil =>
    intro rest c _
    rfl
  | cons q qs ih =>
    intro rest c hcl
    cases rest with
    | nil => simp [clStarts] at hcl
    | cons r rs =>
      rw [clStarts_cons, Bool.and_eq_true] at hcl
      obtain ⟨hr, hq⟩ := hcl
      rw [show (q :: qs).length = qs.length + 1 from rfl, List.take_succ_cons,
        List.getLastD_cons, List.getLastD_cons, ih rs r hq, beq_iff_eq.mp hr]

/-- A substitution pass for pattern B preserves the absence of matches of an
already-eliminated pattern A. -/
theorem reSub_preserves_no_match (useB_A useB_B : Bool) (a0 : Char) (as : List Char)
    (b0 : Char) (bs : List Char)
    (hQA : ∀ q ∈ a0 :: as, q ≠ '\x22')
    (hWA : useB_A = true → ∀ q ∈ a0 :: as, isWordChar q = true)
    (hPB : useB_B = false → isWordChar b0 = false)
    (hPBlast : useB_B = false → isWordChar (bs.getLastD b0) = false)
    (hRA : ∀ prev t, hasMatch useB_A a0 as prev (odRepl.data ++ t)
          = hasMatch useB_A a0 as (some '\x22') t) :
    ∀ prev l, hasMatch useB_A a0 as prev l = false →
      hasMatch useB_A a0 as prev (reSub useB_B b0 bs odRepl.data prev l) = false := by
  intro prev l
  induction prev, l using reSub.induct useB_B b0 bs odRepl.data with
  | case1 prev =>
    intro _
    rw [reSub_nil]
    rfl
  | case2 prev c rest hcond ih =>
    intro hin
    have hcond' := hcond
    simp only [Bool.and_eq_true] at hcond'
    obtain ⟨⟨hpOk, hb, hcp⟩, hnOk⟩ := hcond'
    have hout := reSub_cons_pos useB_B b0 bs odRepl.data prev c rest hcond
    rw [hout, hRA]
    have hin' : hasMatch useB_A a0 as (some ((rest.take bs.length).getLastD c))
        (rest.drop bs.length) = false := hasMatch_drop useB_A a0 as bs.length c rest prev hin
    have ihc := ih hin'
    by_cases hA : useB_A = true
    · by_cases hB : useB_B = true
      · subst hB
        cases hd : rest.drop bs.length with
        | nil =>
          rw [reSub_nil]
          rfl
        | cons d t' =>
          rw [hd] at ihc
          have hdw : isWordChar d = false := by
            rw [hd] at hnOk
            simpa [nextOk] using hnOk
          by_cases hm : matchCond true b0 bs (some ((rest.take bs.length).getLastD c))
              (d :: t') = true
          · have hout2 := reSub_cons_pos true b0 bs odRepl.data
              (some ((rest.take bs.length).getLastD c)) d t' hm
            rw [hout2] at ihc ⊢
            rw [hRA] at ihc ⊢
            exact ihc
          · have hout2 := reSub_cons_neg true b0 bs odRepl.data
              (some ((rest.take bs.length).getLastD c)) d t' (Bool.eq_false_iff.mpr hm)
            rw [hout2] at ihc ⊢
            rw [hasMatch_cons, Bool.or_eq_false_iff] at ihc ⊢
            refine ⟨?_, ihc.2⟩
            have hdb : (d.toLower == a0) = false :=
              toLower_beq_eq_false_of_word (hWA hA a0 (List.mem_cons_self _ _)) hdw
            simp only [matchCond, hdb, Bool.false_and, Bool.and_false]
      · have hBf : useB_B = false := Bool.eq_false_iff.mpr hB
        have hlast : isWordChar ((rest.take bs.length).getLastD c) = false := by
          rw [← isWordChar_toLower, clStarts_take_getLastD bs rest c hcp,
            beq_iff_eq.mp hb]
          exact hPBlast hBf
        have hcongr : prevOk useB_A (some '\x22')
            = prevOk useB_A (some ((rest.take bs.length).getLastD c)) := by
          subst hA
          show (!isWordChar '\x22') = (!isWordChar _)
          rw [hlast]
          rfl
        rw [hasMatch_prev_congr useB_A a0 as hcongr]
        exact ihc
    · have hcongr : prevOk useB_A (some '\x22')
          = prevOk useB_A (some ((rest.take bs.length).getLastD c)) := by
        rw [Bool.eq_false_iff.mpr hA]
        rfl
      rw [hasMatch_prev_congr useB_A a0 as hcongr]
      exact ihc
  | case3 prev c rest hcond ih =>
    intro hin
    have hcf : matchCond useB_B b0 bs prev (c :: rest) = false := by
      have : (prevOk useB_B prev && (c.toLower == b0 && clStarts bs rest) &&
          nextOk useB_B (rest.drop bs.length)) = false := by
        simpa using hcond
      exact this
    have hout := reSub_cons_neg useB_B b0 bs odRepl.data prev c rest hcf
    rw [hasMatch_cons, Bool.or_eq_false_iff] at hin
    obtain ⟨hmc0, htail⟩ := hin
    have ihc := ih htail
    rw [hout, hasMatch_cons, Bool.or_eq_false_iff]
    refine ⟨?_, ihc⟩
    by_contra hmc
    rw [Bool.not_eq_false] at hmc
    simp only [matchCond, Bool.and_eq_true] at hmc
    obtain ⟨⟨hpOk, hb, hcp⟩, hnOk⟩ := hmc
    obtain ⟨t1, t2⟩ := trans_clStarts useB_A useB_B a0 as b0 bs hQA hWA hPB (some c) rest as
      ⟨0, rfl⟩
      (fun _ hA _ => ⟨c, rfl,
        isWordChar_of_toLower_beq (hWA hA a0 (List.mem_cons_self _ _)) hb⟩)
      hcp
    have hTrue : matchCond useB_A a0 as prev (c :: rest) = true := by
      simp only [matchCond, Bool.and_eq_true]
      refine ⟨⟨hpOk, hb, t1⟩, ?_⟩
      by_cases hA : useB_A = true
      · subst hA
        rw [← t2 rfl]
        exact hnOk
      · rw [Bool.eq_false_iff.mpr hA]
        rfl
    rw [hmc0] at hTrue
    exact absurd hTrue (by decide)

theorem fixData_eq (l : List Char) : fixData l =
    reSub false '[' "order details]".data odRepl.data none
      (reSub false '`' "order details`".data odRepl.data none
        (reSub true 'o' "rder_details".data odRepl.data none
          (reSub true 'o' "rderdetails".data odRepl.data none
            (reSub true 'o' "rder_details".data odRepl.data none
              (reSub true 'o' "rderdetails".data odRepl.data none l))))) := rfl

/-- After the six passes, none of the four distinct patterns matches anywhere
in the result. -/
theorem fixData_no_match (l : List Char) :
    hasMatch true 'o' "rderdetails".data none (fixData l) = false ∧
    hasMatch true 'o' "rder_details".data none (fixData l) = false ∧
    hasMatch false '`' "order details`".data none (fixData l) = false ∧
    hasMatch false '[' "order details]".data none (fixData l) = false := by
  rw [fixData_eq]
  refine ⟨?_, ?_, ?_, ?_⟩
  · apply reSub_preserves_no_match true false 'o' "rderdetails".data '[' "order details]".data
      (by decide) (fun _ => by decide) (fun _ => by decide) (fun _ => by decide) hasMatch_R_OD
    apply reSub_preserves_no_match true false 'o' "rderdetails".data '`' "order details`".data
      (by decide) (fun _ => by decide) (fun _ => by decide) (fun _ => by decide) hasMatch_R_OD
    apply reSub_preserves_no_match true true 'o' "rderdetails".data 'o' "rder_details".data
      (by decide) (fun _ => by decide) (fun h => nomatch h) (fun h => nomatch h) hasMatch_R_OD
    exact reSub_no_match_self true 'o' "rderdetails".data (by decide) (fun _ => by decide)
      (fun h => nomatch h) hasMatch_R_OD none _
  · apply reSub_preserves_no_match true false 'o' "rder_details".data '[' "order details]".data
      (by decide) (fun _ => by decide) (fun _ => by decide) (fun _ => by decide) hasMatch_R_ODu
    apply reSub_preserves_no_match true false 'o' "rder_details".data '`' "order details`".data
      (by decide) (fun _ => by decide) (fun _ => by decide) (fun _ => by decide) hasMatch_R_ODu
    exact reSub_no_match_self true 'o' "rder_details".data (by decide) (fun _ => by decide)
      (fun h => nomatch h) hasMatch_R_ODu none _
  · apply reSub_preserves_no_match false false '`' "order details`".data '[' "order details]".data
      (by decide) (fun h => nomatch h) (fun _ => by decide) (fun _ => by decide) hasMatch_R_BT
    exact reSub_no_match_self false '`' "order details`".data (by decide) (fun h => nomatch h)
      (fun _ => by decide) hasMatch_R_BT none _
  · exact reSub_no_match_self false '[' "order details]".data (by decide) (fun h => nomatch h)
      (fun _ => by decide) hasMatch_R_BR none _

theorem fixData_idem (l : List Char) : fixData (fixData l) = fixData l := by
  obtain ⟨h1, h2, h3, h4⟩ := fixData_no_match l
  conv_lhs => rw [fixData_eq]
  rw [reSub_eq_of_no_match _ _ _ _ _ _ h1, reSub_eq_of_no_match _ _ _ _ _ _ h2,
    reSub_eq_of_no_match _ _ _ _ _ _ h1, reSub_eq_of_no_match _ _ _ _ _ _ h2,
    reSub_eq_of_no_match _ _ _ _ _ _ h3, reSub_eq_of_no_match _ _ _ _ _ _ h4]

/-- C10: the table-name canonicalization pass is idempotent: for every input
string `s`, `fix_order_details_table (fix_order_details_table s) =
fix_order_details_table s` — the replacement text `"Order Details"` matches
none of the rewritten patterns, and a pass never creates a fresh match of any
of the six patterns, so a second application finds nothing to rewrite. -/
theorem fix_order_details_table_idempotent :
    ∀ s : String, fix_order_details_table (fix_order_details_table s)
      = fix_order_details_table s := by
  intro s
  show (⟨fixData (fixData s.data)⟩ : String) = ⟨fixData s.data⟩
  rw [fixData_idem]

end RetailCopilot
